import Mathlib

/-!
Shallow embedding of the transaction synchronization and categorization
subsystem of the budgetApp repository, together with proofs of the spec's
claims about it.

Embedding conventions:
* TypeScript `string | null` / optional fields become `Option String`.
* Numeric amounts and timestamps become `Int`; the embedded code never does
  arithmetic on amounts, and timestamps are in milliseconds as in `Date.now()`.
* SQL rows become structures; an `INSERT ... ON CONFLICT` becomes a function
  from the optional existing row (or the row list) to the new row/list.
* JavaScript regular-expression evaluation (`new RegExp(p, "i").test(v)`) is
  an oracle parameter `regexTest : String → String → Option Bool`, where
  `none` models the constructor throwing on an invalid pattern.
-/

namespace BudgetApp

/-! ## Rule matcher (apps/api/src/categorization/rules.ts) -/

/-- Fields a categorization rule can test, from the matcher's `RuleField`. -/
inductive RuleField where
  | MERCHANT_NAME
  | ORIGINAL_DESCRIPTION
  | ACCOUNT_NAME
  | MCC
  | PLAID_PRIMARY_CATEGORY
  | PLAID_DETAILED_CATEGORY
deriving DecidableEq, Repr

/-- Operators a categorization rule can use, from the matcher's `RuleOperator`. -/
inductive RuleOperator where
  | EQUALS
  | CONTAINS
  | STARTS_WITH
  | ENDS_WITH
  | REGEX
deriving DecidableEq, Repr

/-- One active category rule row, from the matcher's `CategoryRule` interface.
`created_at` is the `created_at::text` column value. -/
structure CategoryRule where
  id : String
  category_id : String
  field : RuleField
  operator : RuleOperator
  pattern : String
  priority : Int
  created_at : String
deriving DecidableEq, Repr

/-- Matching context for one transaction, from `TransactionMatchInput`. -/
structure TransactionMatchInput where
  userId : String
  merchantName : Option String
  originalDescription : String
  accountName : String
  mcc : Option String
  plaidPrimaryCategory : Option String
  plaidDetailedCategory : Option String
deriving Repr

/-- Character-level model of JS `String.prototype.trim`. -/
def strTrim (s : String) : String :=
  ⟨((s.data.dropWhile Char.isWhitespace).reverse.dropWhile Char.isWhitespace).reverse⟩

/-- Character-level model of JS `String.prototype.toLowerCase`. -/
def strToLower (s : String) : String :=
  ⟨s.data.map Char.toLower⟩

/-- Emptiness of a string, via its character list. -/
def strIsEmpty (s : String) : Bool :=
  s.data.isEmpty

/-- Model of JS `String.prototype.startsWith`. -/
def strStartsWith (value pattern : String) : Bool :=
  pattern.data.isPrefixOf value.data

/-- Model of JS `String.prototype.endsWith`. -/
def strEndsWith (value pattern : String) : Bool :=
  pattern.data.reverse.isPrefixOf value.data.reverse

/-- JS `value?.trim().toLowerCase() || ""` from the matcher's `normalized`. -/
def normalized : Option String → String
  | none => ""
  | some s => strToLower (strTrim s)

/-- Value of the rule's field in the transaction context, from `readFieldValue`. -/
def readFieldValue (rule : CategoryRule) (tx : TransactionMatchInput) : String :=
  match rule.field with
  | .MERCHANT_NAME => normalized tx.merchantName
  | .ORIGINAL_DESCRIPTION => normalized (some tx.originalDescription)
  | .ACCOUNT_NAME => normalized (some tx.accountName)
  | .MCC => normalized tx.mcc
  | .PLAID_PRIMARY_CATEGORY => normalized tx.plaidPrimaryCategory
  | .PLAID_DETAILED_CATEGORY => normalized tx.plaidDetailedCategory

/-- Substring test used for the `CONTAINS` operator (JS `String.includes`). -/
def strIncludes (value pattern : String) : Bool :=
  (List.range (value.data.length + 1)).any
    (fun i => pattern.data.isPrefixOf (value.data.drop i))

/-- Predicate for one rule against one transaction, from `matchesRule`.
`regexTest p v = none` models `new RegExp(p, "i")` throwing on an invalid
pattern, which the source catches and turns into `false`. -/
def matchesRule (regexTest : String → String → Option Bool)
    (rule : CategoryRule) (tx : TransactionMatchInput) : Bool :=
  let value := readFieldValue rule tx
  let pattern := normalized (some rule.pattern)
  if strIsEmpty value || strIsEmpty pattern then false
  else
    match rule.operator with
    | .EQUALS => value = pattern
    | .CONTAINS => strIncludes value pattern
    | .STARTS_WITH => strStartsWith value pattern
    | .ENDS_WITH => strEndsWith value pattern
    | .REGEX => (regexTest rule.pattern value).getD false

/-- Specificity score of a rule, from `specificityScore`. -/
def specificityScore (rule : CategoryRule) : Int :=
  let patternLen : Int := rule.pattern.length
  match rule.operator with
  | .EQUALS => 400 + patternLen
  | .STARTS_WITH => 300 + patternLen
  | .ENDS_WITH => 300 + patternLen
  | .CONTAINS => 200 + patternLen
  | .REGEX => 100 + patternLen

/-- Three-way string comparison modelling JS `String.localeCompare`
(sign-only: the source only uses the sign of the result). -/
def compareStrings (a b : String) : Int :=
  if a < b then -1 else if b < a then 1 else 0

/-- Comparator over matched rules, from `compareRules`: priority ascending,
then specificity descending, then `created_at` ascending, then `id` ascending. -/
def compareRules (a b : CategoryRule) : Int :=
  if a.priority ≠ b.priority then a.priority - b.priority
  else
    let specificityDelta := specificityScore b - specificityScore a
    if specificityDelta ≠ 0 then specificityDelta
    else if a.created_at ≠ b.created_at then compareStrings a.created_at b.created_at
    else compareStrings a.id b.id

/-- Order induced by `compareRules` (non-positive comparator result), used to
embed the comparator-based `matches.sort(compareRules)`. -/
def ruleLE (a b : CategoryRule) : Prop := compareRules a b ≤ 0

instance : DecidableRel ruleLE := fun a b => inferInstanceAs (Decidable (compareRules a b ≤ 0))

/-- Winner selection, from `findBestCategoryRuleFromList`: filter the matching
rules, sort them with `compareRules`, return the first (or `none`). A stable
insertion sort stands in for `Array.prototype.sort`. -/
def findBestCategoryRuleFromList (regexTest : String → String → Option Bool)
    (rules : List CategoryRule) (tx : TransactionMatchInput) : Option CategoryRule :=
  let matched := rules.filter (fun rule => matchesRule regexTest rule tx)
  if matched.isEmpty then none
  else (matched.insertionSort ruleLE).head?

/-! ## Rule learner (the learner module's `buildLearnedRuleCandidate`) -/

/-- JS `value?.trim().toLowerCase() || null` from the learner's `normalized`. -/
def normalizedOpt : Option String → Option String
  | none => none
  | some s =>
    if strIsEmpty (strToLower (strTrim s)) then none else some (strToLower (strTrim s))

/-- Descriptive fields of a source transaction, from `RuleSourceTransaction`. -/
structure RuleSourceTransaction where
  merchantName : Option String
  originalDescription : String
  mcc : Option String
  plaidDetailedCategory : Option String
  plaidPrimaryCategory : Option String
deriving Repr

/-- Learned rule candidate, from `LearnedRuleCandidate`. -/
structure LearnedRuleCandidate where
  field : RuleField
  operator : RuleOperator
  pattern : String
  priority : Int
deriving DecidableEq, Repr

/-- Candidate derivation, from `buildLearnedRuleCandidate`: first non-empty
normalized field in the fixed order merchant → description → mcc → plaid
detailed → plaid primary, operator fixed to `EQUALS`. -/
def buildLearnedRuleCandidate (tx : RuleSourceTransaction) : Option LearnedRuleCandidate :=
  match normalizedOpt tx.merchantName with
  | some merchant => some ⟨.MERCHANT_NAME, .EQUALS, merchant, 10⟩
  | none =>
  match normalizedOpt (some tx.originalDescription) with
  | some description => some ⟨.ORIGINAL_DESCRIPTION, .EQUALS, description, 20⟩
  | none =>
  match normalizedOpt tx.mcc with
  | some mcc => some ⟨.MCC, .EQUALS, mcc, 30⟩
  | none =>
  match normalizedOpt tx.plaidDetailedCategory with
  | some plaidDetailed => some ⟨.PLAID_DETAILED_CATEGORY, .EQUALS, plaidDetailed, 40⟩
  | none =>
  match normalizedOpt tx.plaidPrimaryCategory with
  | some plaidPrimary => some ⟨.PLAID_PRIMARY_CATEGORY, .EQUALS, plaidPrimary, 50⟩
  | none => none

/-! ## Reconciler upsert (apps/api/src/plaid/incremental-sync.ts) -/

/-- Provenance of a transaction's assigned category (`category_source` column). -/
inductive CategorySource where
  | SYSTEM
  | USER
  | RULE
deriving DecidableEq, Repr

/-- Nested `personal_finance_category` object of an upstream record. -/
structure PersonalFinanceCategory where
  primary : Option String
  detailed : Option String
deriving DecidableEq, Repr

/-- One upstream transaction record, from the `SyncTransaction` interface. -/
structure SyncTransaction where
  transaction_id : String
  amount : Int
  iso_currency_code : Option String
  date : String
  authorized_date : Option String
  merchant_name : Option String
  name : String
  mcc : Option String
  pending : Bool
  personal_finance_category : Option PersonalFinanceCategory
deriving DecidableEq, Repr

/-- One local `"transaction"` table row, with the columns touched by
`upsertPlaidTransaction`. `raw_payload` keeps the upstream record itself in
place of its JSON serialization. -/
structure TransactionRow where
  user_id : String
  account_id : String
  source : String
  external_id : String
  amount : Int
  iso_currency_code : String
  transaction_date : String
  authorized_date : Option String
  merchant_name : Option String
  original_description : String
  mcc : Option String
  pending : Bool
  is_excluded : Bool
  category_id : Option String
  category_source : CategorySource
  category_confidence : Option Rat
  plaid_primary_category : Option String
  plaid_detailed_category : Option String
  raw_payload : SyncTransaction
deriving DecidableEq, Repr

/-- Row built from the `VALUES (...)` list of `upsertPlaidTransaction`'s
`INSERT`, with the parameter bindings `tx.iso_currency_code ?? "USD"`,
`tx.authorized_date ?? null`, etc. `categoryId` is the result of
`ensureSystemCategoryIdForPlaidTransaction`. -/
def plaidInsertRow (userId accountId : String) (tx : SyncTransaction)
    (categoryId : Option String) : TransactionRow :=
  { user_id := userId
    account_id := accountId
    source := "PLAID"
    external_id := tx.transaction_id
    amount := tx.amount
    iso_currency_code := tx.iso_currency_code.getD "USD"
    transaction_date := tx.date
    authorized_date := tx.authorized_date
    merchant_name := tx.merchant_name
    original_description := tx.name
    mcc := tx.mcc
    pending := tx.pending
    is_excluded := false
    category_id := categoryId
    category_source := .SYSTEM
    category_confidence := none
    plaid_primary_category := tx.personal_finance_category.bind (fun c => c.primary)
    plaid_detailed_category := tx.personal_finance_category.bind (fun c => c.detailed)
    raw_payload := tx }

/-- The `ON CONFLICT (source, external_id) DO UPDATE SET` clause of
`upsertPlaidTransaction`, applied to the existing row and the `EXCLUDED`
(to-be-inserted) row. Columns absent from the `SET` list — in particular
`is_excluded` — keep their existing values. -/
def plaidConflictUpdate (existing excluded : TransactionRow) : TransactionRow :=
  { existing with
    user_id := excluded.user_id
    account_id := excluded.account_id
    amount := excluded.amount
    iso_currency_code := excluded.iso_currency_code
    transaction_date := excluded.transaction_date
    authorized_date := excluded.authorized_date
    merchant_name := excluded.merchant_name
    original_description := excluded.original_description
    mcc := excluded.mcc
    pending := excluded.pending
    category_id :=
      if existing.category_source = .USER then existing.category_id
      else if existing.category_source = .RULE then existing.category_id
      else excluded.category_id
    category_source :=
      if existing.category_source = .USER then existing.category_source
      else if existing.category_source = .RULE then existing.category_source
      else .SYSTEM
    category_confidence :=
      if existing.category_source = .USER then existing.category_confidence
      else if existing.category_source = .RULE then existing.category_confidence
      else none
    plaid_primary_category := excluded.plaid_primary_category
    plaid_detailed_category := excluded.plaid_detailed_category
    raw_payload := excluded.raw_payload }

/-- The whole `upsertPlaidTransaction` statement on the row (if any) currently
stored under the conflict key `(source, external_id)`: insert when absent,
apply the `DO UPDATE SET` clause when present. -/
def upsertPlaidTransaction (userId accountId : String) (tx : SyncTransaction)
    (categoryId : Option String) (existing : Option TransactionRow) : TransactionRow :=
  let row := plaidInsertRow userId accountId tx categoryId
  match existing with
  | none => row
  | some ex => plaidConflictUpdate ex row

/-! ## Sync job state machine (the sync-jobs module) -/

/-- Status enum of a `sync_job` row, from `SyncJobStatus`. -/
inductive SyncJobStatus where
  | PENDING
  | RETRY
  | PROCESSING
  | COMPLETED
  | FAILED
deriving DecidableEq, Repr

/-- One `sync_job` table row, from `SyncJobRow` plus the columns the SQL in the
sync-jobs module reads or writes. `next_run_at` is a millisecond timestamp. -/
structure SyncJobRow where
  id : String
  user_id : String
  plaid_item_id : String
  idempotency_key : String
  trigger_source : String
  status : SyncJobStatus
  attempt_count : Nat
  max_attempts : Nat
  next_run_at : Int
  last_error : Option String
  payload : String
deriving DecidableEq, Repr

/-- One `plaid_item` table row, with the columns read by the sync code. -/
structure PlaidItemRow where
  id : String
  user_id : String
  plaid_item_id : String
  plaid_cursor : Option String
deriving DecidableEq, Repr

/-- Result of `enqueueWebhookSyncJob` when a linked item exists. -/
structure EnqueueResult where
  created : Bool
  jobId : String
  plaidItemDbId : String
deriving DecidableEq, Repr

/-- The `enqueueWebhookSyncJob` function on an explicit job store.
`hash` stands for `buildWebhookIdempotencyKey` (sha256 of the serialized
payload); `newJobId` is the id the database would generate for a fresh row;
`now` is the `next_run_at` default of the `sync_job` table. The
`ON CONFLICT (idempotency_key) DO NOTHING` insert is modelled by a lookup on
the unique `idempotency_key` column. -/
def enqueueWebhookSyncJob (hash : String → String)
    (plaidItems : List PlaidItemRow) (jobs : List SyncJobRow)
    (newJobId : String) (now : Int)
    (plaidApiItemId : String) (payload : String) :
    List SyncJobRow × Option EnqueueResult :=
  match plaidItems.find? (fun it => it.plaid_item_id = plaidApiItemId) with
  | none => (jobs, none)
  | some item =>
    let idempotencyKey := hash payload
    match jobs.find? (fun j => j.idempotency_key = idempotencyKey) with
    | none =>
      let row : SyncJobRow :=
        { id := newJobId
          user_id := item.user_id
          plaid_item_id := item.id
          idempotency_key := idempotencyKey
          trigger_source := "WEBHOOK"
          status := .PENDING
          attempt_count := 0
          max_attempts := 5
          next_run_at := now
          last_error := none
          payload := payload }
      (jobs ++ [row], some ⟨true, newJobId, item.id⟩)
    | some existingJob => (jobs, some ⟨false, existingJob.id, item.id⟩)

/-- Backoff target from `nextRetryAt`: `Date.now() + min(300, 2^max(1, attempt)) * 1000`. -/
def nextRetryAt (now : Int) (attempt : Nat) : Int :=
  let backoffSeconds : Int := min 300 (2 ^ max 1 attempt)
  now + backoffSeconds * 1000

/-- The claiming `UPDATE` of `processSyncJob`: move to `PROCESSING` only when
the row is `PENDING` or `RETRY` and `next_run_at <= now`; otherwise zero rows
are updated, modelled as `none`. -/
def claimSyncJob (job : SyncJobRow) (now : Int) : Option SyncJobRow :=
  if (job.status = .PENDING ∨ job.status = .RETRY) ∧ job.next_run_at ≤ now then
    some { job with status := .PROCESSING }
  else none

/-- The success `UPDATE` of `processSyncJob`: `COMPLETED`, attempt count
incremented, last error cleared. -/
def completeSyncJob (job : SyncJobRow) : SyncJobRow :=
  { job with
    status := .COMPLETED
    attempt_count := job.attempt_count + 1
    last_error := none }

/-- The failure `UPDATE` of `processSyncJob`: increment the attempt count and
either finish in `FAILED` with `next_run_at = now`, or back off into `RETRY`. -/
def failSyncJob (job : SyncJobRow) (now : Int) (errMsg : String) : SyncJobRow :=
  let nextAttempt := job.attempt_count + 1
  let finalFailure := job.max_attempts ≤ nextAttempt
  { job with
    status := if finalFailure then .FAILED else .RETRY
    attempt_count := nextAttempt
    next_run_at := if finalFailure then now else nextRetryAt now nextAttempt
    last_error := some errMsg }

/-- Observable outcome of `processSyncJob`: `{claimed: false}`,
`{claimed: true, completed: true}`, or `{claimed: true, completed: false, failed}`. -/
inductive ProcessResult where
  | notClaimed
  | succeeded
  | failedAttempt (finalFailure : Bool)
deriving DecidableEq, Repr

/-- The whole `processSyncJob` on one job row: claim, then run the reconciler
(whose outcome is the `syncResult` parameter) and record the result. -/
def processSyncJob (job : SyncJobRow) (now : Int) (syncResult : Except String Unit) :
    SyncJobRow × ProcessResult :=
  match claimSyncJob job now with
  | none => (job, .notClaimed)
  | some claimed =>
    match syncResult with
    | .ok _ => (completeSyncJob claimed, .succeeded)
    | .error msg =>
      (failSyncJob claimed now msg,
       .failedAttempt (claimed.max_attempts ≤ claimed.attempt_count + 1))

/-- The status-writing operations the sync-jobs module performs on an existing
`sync_job` row: the conditional claim, the success update, and the failure
update of `processSyncJob`. -/
inductive SyncJobOp where
  | claim (now : Int)
  | complete
  | fail (now : Int) (errMsg : String)

/-- Effect of one `SyncJobOp` on a row; an unsatisfied claim condition updates
zero rows and leaves the row unchanged. -/
def applySyncJobOp (job : SyncJobRow) : SyncJobOp → SyncJobRow
  | .claim now => (claimSyncJob job now).getD job
  | .complete => completeSyncJob job
  | .fail now msg => failSyncJob job now msg

/-! ## Reconciler run loop (`runIncrementalSyncForUser`) -/

/-- Error object rejected by the upstream client, with the fields read by
`plaidErrorCode` / `plaidErrorMessage`: the optional
`response.data.error_code`, the optional `response.data.error_message`, and
the `Error#message` when the rejection is an `Error` instance. -/
structure PlaidError where
  error_code : Option String
  error_message : Option String
  thrown_message : Option String
deriving DecidableEq, Repr

/-- Field projection from `plaidErrorCode`. -/
def plaidErrorCode (e : PlaidError) : Option String := e.error_code

/-- Fallback chain from `plaidErrorMessage`: the upstream `error_message` when
non-blank, else the thrown `Error` message when non-blank, else a constant. -/
def plaidErrorMessage (e : PlaidError) : String :=
  match e.error_message with
  | some m =>
    if !(strIsEmpty (strTrim m)) then m
    else
      match e.thrown_message with
      | some t => if !(strIsEmpty (strTrim t)) then t else "Unknown Plaid sync error"
      | none => "Unknown Plaid sync error"
  | none =>
    match e.thrown_message with
    | some t => if !(strIsEmpty (strTrim t)) then t else "Unknown Plaid sync error"
    | none => "Unknown Plaid sync error"

/-- Detail string thrown when a cursor-less fetch fails:
`` `${plaidErrorCode(error) ?? "PLAID_ERROR"}: ${plaidErrorMessage(error)}` ``. -/
def plaidErrorDetails (e : PlaidError) : String :=
  ((plaidErrorCode e).getD "PLAID_ERROR") ++ ": " ++ plaidErrorMessage e

/-- One record of a sync page's `added` / `modified` arrays. Plaid returns the
owning `account_id` alongside the fields of `SyncTransaction`. -/
structure SyncFeedTransaction where
  account_id : String
  record : SyncTransaction
deriving DecidableEq, Repr

/-- One page of `plaidClient.transactionsSync`'s response data. The `removed`
entries carry only their `transaction_id`. -/
structure SyncPage where
  added : List SyncFeedTransaction
  modified : List SyncFeedTransaction
  removed : List String
  next_cursor : String
  has_more : Bool
deriving DecidableEq, Repr

/-- Failures `runIncrementalSyncForUser` can throw: the named `NoItemsError`,
the wrapped `new Error(details)` from a cursor-less fetch failure, and the raw
client rejection re-raised from a failed drift-retry fetch. -/
inductive SyncFailure where
  | noItems
  | fatal (details : String)
  | upstream (e : PlaidError)
deriving DecidableEq, Repr

/-- JS truthiness of the local `cursor` variable (`undefined` and `""` are falsy). -/
def cursorTruthy : Option String → Bool
  | none => false
  | some s => !(strIsEmpty s)

/-- One `transactionsSync` call with the drift-recovery `catch` of
`runIncrementalSyncForUser`: on failure with a truthy cursor, clear the cursor
and retry once from the beginning; on failure without a cursor, throw the
wrapped detail error. Returns the list of cursors attempted (instrumentation),
whether the stored cursor was cleared, and the outcome. -/
def syncFetchWithDriftReset (client : Option String → Except PlaidError SyncPage)
    (cursor : Option String) :
    List (Option String) × Bool × Except SyncFailure SyncPage :=
  match client cursor with
  | .ok page => ([cursor], false, .ok page)
  | .error e =>
    if cursorTruthy cursor then
      match client none with
      | .ok page => ([cursor, none], true, .ok page)
      | .error e2 => ([cursor, none], true, .error (.upstream e2))
    else
      ([cursor], false, .error (.fatal (plaidErrorDetails e)))

/-- Accumulated `totalAdded` / `totalModified` / `totalRemoved` counters. -/
structure SyncCounts where
  added : Nat
  modified : Nat
  removed : Nat
deriving DecidableEq, Repr

/-- One `account` table row, with the columns read by the reconciler. -/
structure AccountRow where
  id : String
  user_id : String
  plaid_item_id : String
  plaid_account_id : String
deriving DecidableEq, Repr

/-- The `accountByPlaidId` map built for one item: `plaid_account_id → id`. -/
def accountMapForItem (accounts : List AccountRow) (userId itemId : String) :
    List (String × String) :=
  (accounts.filter (fun a => a.user_id = userId ∧ a.plaid_item_id = itemId)).map
    (fun a => (a.plaid_account_id, a.id))

/-- Effect of one page on the counters: `added`/`modified` records whose
`account_id` is unknown are skipped, every `removed` record is counted. The
per-record store writes are modelled separately by `upsertPlaidTransaction`. -/
def applySyncPage (accountByPlaidId : List (String × String)) (page : SyncPage)
    (c : SyncCounts) : SyncCounts :=
  { added := c.added +
      (page.added.countP (fun t => ((accountByPlaidId.lookup t.account_id).isSome : Bool)))
    modified := c.modified +
      (page.modified.countP (fun t => ((accountByPlaidId.lookup t.account_id).isSome : Bool)))
    removed := c.removed + page.removed.length }

/-- The `while (hasMore)` page loop for one item. `fuel` bounds the number of
iterations; `none` models a run that has not terminated within `fuel` pages.
The cursor in the result is the value persisted to `plaid_item.plaid_cursor`
after the loop. -/
def runItemPageLoop (client : Option String → Except PlaidError SyncPage)
    (accountByPlaidId : List (String × String)) :
    Nat → Option String → SyncCounts →
    Option (Except SyncFailure (SyncCounts × Option String))
  | 0, _, _ => none
  | fuel + 1, cursor, c =>
    match (syncFetchWithDriftReset client cursor).2.2 with
    | .error e => some (.error e)
    | .ok page =>
      let c' := applySyncPage accountByPlaidId page c
      if page.has_more then
        runItemPageLoop client accountByPlaidId fuel (some page.next_cursor) c'
      else
        some (.ok (c', some page.next_cursor))

/-- The `for (const item of items)` loop of `runIncrementalSyncForUser`,
threading the counters across items. `client itemId` is the upstream feed for
that item's access token. -/
def runItemsLoop (client : String → Option String → Except PlaidError SyncPage)
    (accounts : List AccountRow) (userId : String) (fuel : Nat) :
    List PlaidItemRow → SyncCounts → Option (Except SyncFailure SyncCounts)
  | [], c => some (.ok c)
  | item :: rest, c =>
    match runItemPageLoop (client item.id) (accountMapForItem accounts userId item.id)
        fuel item.plaid_cursor c with
    | none => none
    | some (.error e) => some (.error e)
    | some (.ok (c', _)) => runItemsLoop client accounts userId fuel rest c'

/-- Return shape of `runIncrementalSyncForUser`. -/
structure SyncRunResult where
  syncedItems : Nat
  added : Nat
  modified : Nat
  removed : Nat
deriving DecidableEq, Repr

/-- The scoping `WHERE` clause of the `plaid_item` select: by user, and by
item database id when one is given. -/
def scopedPlaidItems (plaidItems : List PlaidItemRow) (userId : String)
    (plaidItemDbId : Option String) : List PlaidItemRow :=
  plaidItems.filter (fun it =>
    it.user_id = userId &&
      (match plaidItemDbId with
       | none => true
       | some dbId => it.id = dbId))

/-- The whole `runIncrementalSyncForUser`: select the scoped items, throw the
named `NoItemsError` when none match, otherwise walk every item's feed and
return the counters. `none` models non-termination of the page loop. -/
def runIncrementalSyncForUser (plaidItems : List PlaidItemRow)
    (accounts : List AccountRow)
    (client : String → Option String → Except PlaidError SyncPage)
    (userId : String) (plaidItemDbId : Option String) (fuel : Nat) :
    Option (Except SyncFailure SyncRunResult) :=
  let items := scopedPlaidItems plaidItems userId plaidItemDbId
  if items.isEmpty then some (.error .noItems)
  else
    match runItemsLoop client accounts userId fuel items ⟨0, 0, 0⟩ with
    | none => none
    | some (.error e) => some (.error e)
    | some (.ok c) => some (.ok ⟨items.length, c.added, c.modified, c.removed⟩)

/-! ## Comparator framework, and concrete inputs used by witnesses -/

/-- Sequential composition of three-way comparators: the second one breaks the
ties of the first, as each `if ... ≠ 0` step of `compareRules` does. -/
def cmpThen {α : Type} (c d : α → α → Int) (a b : α) : Int :=
  if c a b ≠ 0 then c a b else d a b

/-- Sign laws making a three-way comparator describe a total preorder. -/
structure LawfulCmp {α : Type} (c : α → α → Int) : Prop where
  swap : ∀ a b, c b a = -(c a b)
  cmp_lt_trans : ∀ {a b d}, c a b < 0 → c b d < 0 → c a d < 0
  cmp_eq_trans : ∀ {a b d}, c a b = 0 → c b d = 0 → c a d = 0
  cmp_lt_of_lt_of_eq : ∀ {a b d}, c a b < 0 → c b d = 0 → c a d < 0
  cmp_lt_of_eq_of_lt : ∀ {a b d}, c a b = 0 → c b d < 0 → c a d < 0

/-- Regex oracle that rejects every pattern; used as a concrete instantiation
(the matcher only consults the oracle on `REGEX` rules). -/
def rejectAllRegex : String → String → Option Bool := fun _ _ => none

/-- First rule of the spec's tie-break scenario. -/
def scenarioMerchantRule : CategoryRule :=
  ⟨"rule-a", "cat-a", .MERCHANT_NAME, .EQUALS, "starbucks", 10, "2026-01-01"⟩

/-- Second rule of the spec's tie-break scenario. -/
def scenarioDescriptionRule : CategoryRule :=
  ⟨"rule-b", "cat-b", .ORIGINAL_DESCRIPTION, .CONTAINS, "coffee", 10, "2026-01-01"⟩

/-- Transaction of the spec's tie-break scenario. -/
def scenarioTx : TransactionMatchInput :=
  ⟨"user-1", some "Starbucks", "STARBUCKS COFFEE #123", "Checking", none, none, none⟩

/-- Regex rule whose pattern the oracle rejects; used as a witness input. -/
def invalidRegexRule : CategoryRule :=
  ⟨"rule-x", "cat-x", .MERCHANT_NAME, .REGEX, "(unclosed", 5, "2026-01-02"⟩

/-- Sample claimable `sync_job` row used by witnesses. -/
def samplePendingJob : SyncJobRow :=
  ⟨"job-1", "user-1", "item-1", "fp-1", "WEBHOOK", .PENDING, 0, 5, 0, none, "payload-1"⟩

/-- Sample linked `plaid_item` row used by witnesses. -/
def sampleItem : PlaidItemRow :=
  ⟨"item-1", "user-1", "plaid-item-1", none⟩

/-- Sample upstream error used by witnesses. -/
def samplePlaidError : PlaidError :=
  ⟨some "ITEM_LOGIN_REQUIRED", some "the login details of this item have changed", none⟩

/-- Sample final sync page used by witnesses. -/
def samplePage : SyncPage :=
  ⟨[], [], [], "cursor-1", false⟩

/-- Client that fails every fetch made with a cursor and succeeds from the
beginning; used by witnesses to exercise the drift retry. -/
def sampleDriftClient : Option String → Except PlaidError SyncPage
  | some _ => .error samplePlaidError
  | none => .ok samplePage

/-! # Theorems -/

/-! ## Comparator laws -/

theorem lawfulCmp_sub {α : Type} (f : α → Int) : LawfulCmp (fun a b => f a - f b) := by
  constructor <;> intros <;> omega

theorem lawfulCmp_sub_rev {α : Type} (f : α → Int) : LawfulCmp (fun a b => f b - f a) := by
  constructor <;> intros <;> omega

theorem compareStrings_eq_zero_iff {a b : String} : compareStrings a b = 0 ↔ a = b := by
  unfold compareStrings
  rcases lt_trichotomy a b with h | h | h
  · simp [h, ne_of_lt h]
  · simp [h, lt_irrefl]
  · simp [not_lt_of_gt h, h, (ne_of_lt h).symm]

theorem compareStrings_lt_zero_iff {a b : String} : compareStrings a b < 0 ↔ a < b := by
  unfold compareStrings
  rcases lt_trichotomy a b with h | h | h
  · simp [h]
  · simp [h, lt_irrefl]
  · simp [not_lt_of_gt h, h, lt_asymm h]

theorem compareStrings_swap (a b : String) : compareStrings b a = -(compareStrings a b) := by
  unfold compareStrings
  rcases lt_trichotomy a b with h | h | h
  · simp [h, not_lt_of_gt h]
  · simp [h, lt_irrefl]
  · simp [h, not_lt_of_gt h]

theorem lawfulCmp_strKey {α : Type} (k : α → String) :
    LawfulCmp (fun a b => compareStrings (k a) (k b)) := by
  constructor
  · intro a b
    exact compareStrings_swap (k a) (k b)
  · intro a b d hab hbd
    exact compareStrings_lt_zero_iff.2
      (lt_trans (compareStrings_lt_zero_iff.1 hab) (compareStrings_lt_zero_iff.1 hbd))
  · intro a b d hab hbd
    exact compareStrings_eq_zero_iff.2
      ((compareStrings_eq_zero_iff.1 hab).trans (compareStrings_eq_zero_iff.1 hbd))
  · intro a b d hab hbd
    exact compareStrings_lt_zero_iff.2
      (compareStrings_eq_zero_iff.1 hbd ▸ compareStrings_lt_zero_iff.1 hab)
  · intro a b d hab hbd
    exact compareStrings_lt_zero_iff.2
      ((compareStrings_eq_zero_iff.1 hab).symm ▸ compareStrings_lt_zero_iff.1 hbd)

theorem cmpThen_of_ne {α : Type} {c d : α → α → Int} {a b : α} (h : c a b ≠ 0) :
    cmpThen c d a b = c a b := by
  unfold cmpThen
  simp [h]

theorem cmpThen_of_eq {α : Type} {c d : α → α → Int} {a b : α} (h : c a b = 0) :
    cmpThen c d a b = d a b := by
  unfold cmpThen
  simp [h]

theorem cmpThen_zero {α : Type} {c d : α → α → Int} {a b : α}
    (h : cmpThen c d a b = 0) : c a b = 0 ∧ d a b = 0 := by
  by_cases h1 : c a b = 0
  · rw [cmpThen_of_eq h1] at h
    exact ⟨h1, h⟩
  · rw [cmpThen_of_ne h1] at h
    exact absurd h h1

theorem LawfulCmp.compose {α : Type} {c d : α → α → Int}
    (hc : LawfulCmp c) (hd : LawfulCmp d) : LawfulCmp (cmpThen c d) := by
  constructor
  · intro a b
    by_cases h1 : c a b = 0
    · have h2 : c b a = 0 := by rw [hc.swap]; omega
      rw [cmpThen_of_eq h1, cmpThen_of_eq h2, hd.swap]
    · have h2 : c b a ≠ 0 := by rw [hc.swap]; omega
      rw [cmpThen_of_ne h1, cmpThen_of_ne h2, hc.swap]
  · intro a b d' hab hbd
    by_cases h1 : c a b = 0 <;> by_cases h2 : c b d' = 0
    · rw [cmpThen_of_eq h1] at hab
      rw [cmpThen_of_eq h2] at hbd
      rw [cmpThen_of_eq (hc.cmp_eq_trans h1 h2)]
      exact hd.cmp_lt_trans hab hbd
    · rw [cmpThen_of_ne h2] at hbd
      have h3 := hc.cmp_lt_of_eq_of_lt h1 hbd
      rw [cmpThen_of_ne (ne_of_lt h3)]
      exact h3
    · rw [cmpThen_of_ne h1] at hab
      have h3 := hc.cmp_lt_of_lt_of_eq hab h2
      rw [cmpThen_of_ne (ne_of_lt h3)]
      exact h3
    · rw [cmpThen_of_ne h1] at hab
      rw [cmpThen_of_ne h2] at hbd
      have h3 := hc.cmp_lt_trans hab hbd
      rw [cmpThen_of_ne (ne_of_lt h3)]
      exact h3
  · intro a b d' hab hbd
    obtain ⟨hc1, hd1⟩ := cmpThen_zero hab
    obtain ⟨hc2, hd2⟩ := cmpThen_zero hbd
    rw [cmpThen_of_eq (hc.cmp_eq_trans hc1 hc2)]
    exact hd.cmp_eq_trans hd1 hd2
  · intro a b d' hab hbd
    obtain ⟨hc2, hd2⟩ := cmpThen_zero hbd
    by_cases h1 : c a b = 0
    · rw [cmpThen_of_eq h1] at hab
      rw [cmpThen_of_eq (hc.cmp_eq_trans h1 hc2)]
      exact hd.cmp_lt_of_lt_of_eq hab hd2
    · rw [cmpThen_of_ne h1] at hab
      have h3 := hc.cmp_lt_of_lt_of_eq hab hc2
      rw [cmpThen_of_ne (ne_of_lt h3)]
      exact h3
  · intro a b d' hab hbd
    obtain ⟨hc1, hd1⟩ := cmpThen_zero hab
    by_cases h2 : c b d' = 0
    · rw [cmpThen_of_eq h2] at hbd
      rw [cmpThen_of_eq (hc.cmp_eq_trans hc1 h2)]
      exact hd.cmp_lt_of_eq_of_lt hd1 hbd
    · rw [cmpThen_of_ne h2] at hbd
      have h3 := hc.cmp_lt_of_eq_of_lt hc1 hbd
      rw [cmpThen_of_ne (ne_of_lt h3)]
      exact h3

theorem compareRules_eq_chain (a b : CategoryRule) :
    compareRules a b =
      cmpThen (fun a b => a.priority - b.priority)
        (cmpThen (fun a b => specificityScore b - specificityScore a)
          (cmpThen (fun a b => compareStrings a.created_at b.created_at)
            (fun a b => compareStrings a.id b.id))) a b := by
  simp only [cmpThen]
  unfold compareRules
  by_cases h1 : a.priority = b.priority
  · by_cases h2 : specificityScore b - specificityScore a = 0
    · by_cases h3 : a.created_at = b.created_at
      · simp [h1, h2, h3, compareStrings_eq_zero_iff]
      · have h3' : compareStrings a.created_at b.created_at ≠ 0 := by
          intro h
          exact h3 (compareStrings_eq_zero_iff.1 h)
        simp [h1, h2, h3, h3']
    · simp [h1, h2]
  · have h1' : a.priority - b.priority ≠ 0 := by omega
    simp [h1, h1']

theorem lawfulCompareRules : LawfulCmp compareRules := by
  have h :=
    (lawfulCmp_sub (fun r : CategoryRule => r.priority)).compose
      ((lawfulCmp_sub_rev (fun r : CategoryRule => specificityScore r)).compose
        ((lawfulCmp_strKey (fun r : CategoryRule => r.created_at)).compose
          (lawfulCmp_strKey (fun r : CategoryRule => r.id))))
  constructor
  · intro a b
    rw [compareRules_eq_chain, compareRules_eq_chain]
    exact h.swap a b
  · intro a b d hab hbd
    rw [compareRules_eq_chain] at *
    exact h.cmp_lt_trans hab hbd
  · intro a b d hab hbd
    rw [compareRules_eq_chain] at *
    exact h.cmp_eq_trans hab hbd
  · intro a b d hab hbd
    rw [compareRules_eq_chain] at *
    exact h.cmp_lt_of_lt_of_eq hab hbd
  · intro a b d hab hbd
    rw [compareRules_eq_chain] at *
    exact h.cmp_lt_of_eq_of_lt hab hbd

theorem compareRules_self (a : CategoryRule) : compareRules a a = 0 := by
  have h := lawfulCompareRules.swap a a
  omega

theorem ruleLE_total : ∀ a b : CategoryRule, ruleLE a b ∨ ruleLE b a := by
  intro a b
  unfold ruleLE
  have h := lawfulCompareRules.swap a b
  omega

theorem ruleLE_trans : ∀ a b c : CategoryRule, ruleLE a b → ruleLE b c → ruleLE a c := by
  intro a b c hab hbc
  unfold ruleLE at *
  rcases lt_or_eq_of_le hab with h1 | h1 <;> rcases lt_or_eq_of_le hbc with h2 | h2
  · exact le_of_lt (lawfulCompareRules.cmp_lt_trans h1 h2)
  · exact le_of_lt (lawfulCompareRules.cmp_lt_of_lt_of_eq h1 h2)
  · exact le_of_lt (lawfulCompareRules.cmp_lt_of_eq_of_lt h1 h2)
  · exact le_of_eq (lawfulCompareRules.cmp_eq_trans h1 h2)

instance : IsTotal CategoryRule ruleLE := ⟨ruleLE_total⟩

instance : IsTrans CategoryRule ruleLE := ⟨ruleLE_trans⟩

/-! ## Matcher lemmas -/

theorem findBest_sound (rt : String → String → Option Bool)
    (rules : List CategoryRule) (tx : TransactionMatchInput) (best : CategoryRule)
    (hb : findBestCategoryRuleFromList rt rules tx = some best) :
    best ∈ rules ∧ matchesRule rt best tx = true ∧
      ∀ r ∈ rules, matchesRule rt r tx = true → compareRules best r ≤ 0 := by
  unfold findBestCategoryRuleFromList at hb
  set matched := rules.filter (fun rule => matchesRule rt rule tx) with hmatched
  by_cases hemp : matched.isEmpty
  · simp [hemp] at hb
  · simp only [hemp, if_false, Bool.false_eq_true] at hb
    have hsorted := List.sorted_insertionSort ruleLE matched
    have hperm := List.perm_insertionSort ruleLE matched
    cases hsort : matched.insertionSort ruleLE with
    | nil => rw [hsort] at hb; simp at hb
    | cons x rest =>
      rw [hsort] at hb
      simp only [List.head?_cons, Option.some.injEq] at hb
      subst hb
      rw [hsort] at hsorted hperm
      have hx_mem : x ∈ matched := hperm.mem_iff.1 (List.mem_cons_self x rest)
      have hx_filter := List.mem_filter.1 (hmatched ▸ hx_mem)
      refine ⟨hx_filter.1, hx_filter.2, ?_⟩
      intro r hr hmr
      have hr_matched : r ∈ matched := hmatched ▸ List.mem_filter.2 ⟨hr, hmr⟩
      have hr_sorted : r ∈ x :: rest := hperm.mem_iff.2 hr_matched
      rcases List.mem_cons.1 hr_sorted with h | h
      · rw [h]
        exact le_of_eq (compareRules_self x)
      · exact (List.pairwise_cons.1 hsorted).1 r h

theorem findBest_complete (rt : String → String → Option Bool)
    (rules : List CategoryRule) (tx : TransactionMatchInput) (r : CategoryRule)
    (hr : r ∈ rules) (hm : matchesRule rt r tx = true) :
    ∃ best, findBestCategoryRuleFromList rt rules tx = some best := by
  unfold findBestCategoryRuleFromList
  set matched := rules.filter (fun rule => matchesRule rt rule tx) with hmatched
  have hr_matched : r ∈ matched := hmatched ▸ List.mem_filter.2 ⟨hr, hm⟩
  have hemp : ¬ matched.isEmpty := by
    intro h
    rw [List.isEmpty_iff.1 h] at hr_matched
    exact absurd hr_matched (List.not_mem_nil r)
  simp only [hemp, if_false, Bool.false_eq_true]
  have hperm := List.perm_insertionSort ruleLE matched
  cases hsort : matched.insertionSort ruleLE with
  | nil =>
    rw [hsort] at hperm
    have hnil : matched = [] := hperm.symm.eq_nil
    rw [List.isEmpty_iff.2 hnil] at hemp
    exact absurd rfl hemp
  | cons x rest => exact ⟨x, by simp⟩

/-! ## Claim theorems for the matcher and learner -/

/-- C5: whenever at least one active rule matches the transaction context, the
matcher returns a matching rule that is minimal under the `compareRules`
ordering (priority ascending, then specificity score `operator base + pattern
length` descending, then creation time, then id); and in the spec's concrete
scenario the `MERCHANT_NAME`/`EQUALS`/"starbucks" rule beats the
`ORIGINAL_DESCRIPTION`/`CONTAINS`/"coffee" rule with scores 409 versus 206. -/
theorem c5_matcher_minimal_under_ordering :
    (∀ (rt : String → String → Option Bool) (rules : List CategoryRule)
        (tx : TransactionMatchInput) (r : CategoryRule),
        r ∈ rules → matchesRule rt r tx = true →
        ∃ best, findBestCategoryRuleFromList rt rules tx = some best ∧
          best ∈ rules ∧ matchesRule rt best tx = true ∧
          ∀ r' ∈ rules, matchesRule rt r' tx = true → compareRules best r' ≤ 0) ∧
      specificityScore scenarioMerchantRule = 409 ∧
      specificityScore scenarioDescriptionRule = 206 ∧
      (∀ rt, findBestCategoryRuleFromList rt
        [scenarioMerchantRule, scenarioDescriptionRule] scenarioTx =
          some scenarioMerchantRule) := by
  refine ⟨?_, by decide, by decide, fun rt => rfl⟩
  intro rt rules tx r hr hm
  obtain ⟨best, hb⟩ := findBest_complete rt rules tx r hr hm
  obtain ⟨h1, h2, h3⟩ := findBest_sound rt rules tx best hb
  exact ⟨best, hb, h1, h2, h3⟩

/-- Witness for C5 at the spec's scenario input. -/
theorem c5_witness :
    ∃ best, findBestCategoryRuleFromList rejectAllRegex
        [scenarioMerchantRule, scenarioDescriptionRule] scenarioTx = some best ∧
      best ∈ [scenarioMerchantRule, scenarioDescriptionRule] ∧
      matchesRule rejectAllRegex best scenarioTx = true ∧
      ∀ r' ∈ [scenarioMerchantRule, scenarioDescriptionRule],
        matchesRule rejectAllRegex r' scenarioTx = true →
        compareRules best r' ≤ 0 :=
  c5_matcher_minimal_under_ordering.1 rejectAllRegex
    [scenarioMerchantRule, scenarioDescriptionRule] scenarioTx scenarioMerchantRule
    (by decide) (by decide)

/-- C6: the matcher is a total function; a `REGEX` rule whose pattern the
regex engine rejects evaluates to "no match" rather than an error, and when
no rule matches the matcher returns `none` as a normal result. -/
theorem c6_matcher_never_throws :
    (∀ (rt : String → String → Option Bool) (r : CategoryRule)
        (tx : TransactionMatchInput),
        r.operator = .REGEX → rt r.pattern (readFieldValue r tx) = none →
        matchesRule rt r tx = false) ∧
      (∀ (rt : String → String → Option Bool) (rules : List CategoryRule)
          (tx : TransactionMatchInput),
        (∀ r ∈ rules, matchesRule rt r tx = false) →
        findBestCategoryRuleFromList rt rules tx = none) := by
  constructor
  · intro rt r tx hop hrt
    unfold matchesRule
    rw [hop]
    simp [hrt]
  · intro rt rules tx hnone
    unfold findBestCategoryRuleFromList
    have hfil : rules.filter (fun rule => matchesRule rt rule tx) = [] := by
      rw [List.filter_eq_nil_iff]
      intro r hr
      simp [hnone r hr]
    simp [hfil]

/-- Witness for C6: an invalid-regex rule does not match and a rule list with
no matching rule yields `none`. -/
theorem c6_witness :
    matchesRule rejectAllRegex invalidRegexRule scenarioTx = false ∧
      findBestCategoryRuleFromList rejectAllRegex [invalidRegexRule] scenarioTx = none :=
  ⟨c6_matcher_never_throws.1 rejectAllRegex invalidRegexRule scenarioTx rfl rfl,
   c6_matcher_never_throws.2 rejectAllRegex [invalidRegexRule] scenarioTx (by decide)⟩

/-- C7: the learner derives at most one candidate, choosing the first
non-empty normalized field in the order merchant name (priority 10), original
description (20), MCC (30), upstream detailed category (40), upstream primary
category (50), always with operator `EQUALS` and the normalized value as
pattern; it returns `none` exactly when all five fields normalize to empty. -/
theorem c7_learner_fixed_precedence (tx : RuleSourceTransaction) :
    (buildLearnedRuleCandidate tx = none ↔
      normalizedOpt tx.merchantName = none ∧
      normalizedOpt (some tx.originalDescription) = none ∧
      normalizedOpt tx.mcc = none ∧
      normalizedOpt tx.plaidDetailedCategory = none ∧
      normalizedOpt tx.plaidPrimaryCategory = none) ∧
    (∀ v, normalizedOpt tx.merchantName = some v →
      buildLearnedRuleCandidate tx = some ⟨.MERCHANT_NAME, .EQUALS, v, 10⟩) ∧
    (∀ v, normalizedOpt tx.merchantName = none →
      normalizedOpt (some tx.originalDescription) = some v →
      buildLearnedRuleCandidate tx = some ⟨.ORIGINAL_DESCRIPTION, .EQUALS, v, 20⟩) ∧
    (∀ v, normalizedOpt tx.merchantName = none →
      normalizedOpt (some tx.originalDescription) = none →
      normalizedOpt tx.mcc = some v →
      buildLearnedRuleCandidate tx = some ⟨.MCC, .EQUALS, v, 30⟩) ∧
    (∀ v, normalizedOpt tx.merchantName = none →
      normalizedOpt (some tx.originalDescription) = none →
      normalizedOpt tx.mcc = none →
      normalizedOpt tx.plaidDetailedCategory = some v →
      buildLearnedRuleCandidate tx = some ⟨.PLAID_DETAILED_CATEGORY, .EQUALS, v, 40⟩) ∧
    (∀ v, normalizedOpt tx.merchantName = none →
      normalizedOpt (some tx.originalDescription) = none →
      normalizedOpt tx.mcc = none →
      normalizedOpt tx.plaidDetailedCategory = none →
      normalizedOpt tx.plaidPrimaryCategory = some v →
      buildLearnedRuleCandidate tx = some ⟨.PLAID_PRIMARY_CATEGORY, .EQUALS, v, 50⟩) := by
  refine ⟨?_, ?_, ?_, ?_, ?_, ?_⟩
  · unfold buildLearnedRuleCandidate
    cases hm : normalizedOpt tx.merchantName with
    | some v => simp [hm]
    | none =>
      cases hd : normalizedOpt (some tx.originalDescription) with
      | some v => simp [hm, hd]
      | none =>
        cases hc : normalizedOpt tx.mcc with
        | some v => simp [hm, hd, hc]
        | none =>
          cases hdet : normalizedOpt tx.plaidDetailedCategory with
          | some v => simp [hm, hd, hc, hdet]
          | none =>
            cases hp : normalizedOpt tx.plaidPrimaryCategory with
            | some v => simp [hm, hd, hc, hdet, hp]
            | none => simp [hm, hd, hc, hdet, hp]
  · intro v hv
    simp [buildLearnedRuleCandidate, hv]
  · intro v h1 hv
    simp [buildLearnedRuleCandidate, h1, hv]
  · intro v h1 h2 hv
    simp [buildLearnedRuleCandidate, h1, h2, hv]
  · intro v h1 h2 h3 hv
    simp [buildLearnedRuleCandidate, h1, h2, h3, hv]
  · intro v h1 h2 h3 h4 hv
    simp [buildLearnedRuleCandidate, h1, h2, h3, h4, hv]

/-- Witness for C7 at a concrete source transaction. -/
theorem c7_witness :
    buildLearnedRuleCandidate
        ⟨some " Starbucks ", "STARBUCKS COFFEE", none, none, none⟩ =
      some ⟨.MERCHANT_NAME, .EQUALS, "starbucks", 10⟩ :=
  (c7_learner_fixed_precedence
      ⟨some " Starbucks ", "STARBUCKS COFFEE", none, none, none⟩).2.1
    "starbucks" (by decide)

/-! ## Claim theorems for the reconciler upsert -/

/-- C1: refreshing an already-stored transaction through the reconciler's
upsert leaves category, provenance and confidence untouched when the current
provenance is `USER` or `RULE`, while amount, currency, dates, merchant name,
description, MCC and the pending flag always take the upstream values; only
when the current provenance is `SYSTEM` are the category fields overwritten
(category to the freshly ensured system category, confidence cleared). -/
theorem c1_upsert_protects_user_rule_category
    (userId accountId : String) (tx : SyncTransaction)
    (categoryId : Option String) (ex r : TransactionRow)
    (hr : r = upsertPlaidTransaction userId accountId tx categoryId (some ex)) :
    (ex.category_source = .USER ∨ ex.category_source = .RULE →
        r.category_id = ex.category_id ∧
        r.category_source = ex.category_source ∧
        r.category_confidence = ex.category_confidence) ∧
      (ex.category_source = .SYSTEM →
        r.category_id = categoryId ∧
        r.category_source = .SYSTEM ∧
        r.category_confidence = none) ∧
      r.amount = tx.amount ∧
      r.iso_currency_code = tx.iso_currency_code.getD "USD" ∧
      r.transaction_date = tx.date ∧
      r.authorized_date = tx.authorized_date ∧
      r.merchant_name = tx.merchant_name ∧
      r.original_description = tx.name ∧
      r.mcc = tx.mcc ∧
      r.pending = tx.pending := by
  subst hr
  refine ⟨?_, ?_, rfl, rfl, rfl, rfl, rfl, rfl, rfl, rfl⟩
  · intro h
    rcases h with h | h <;>
      simp [upsertPlaidTransaction, plaidConflictUpdate, plaidInsertRow, h]
  · intro h
    simp [upsertPlaidTransaction, plaidConflictUpdate, plaidInsertRow, h]

/-- Witness for C1 at a concrete stored row with `USER` provenance. -/
theorem c1_witness :
    (upsertPlaidTransaction "u1" "a1"
        ⟨"ext-1", 1250, some "EUR", "2026-02-01", none, some "Cafe", "CAFE PURCHASE",
          none, false, none⟩
        (some "cat-sys")
        (some
          ⟨"u1", "a1", "PLAID", "ext-1", 990, "USD", "2026-01-31", none, some "Cafe",
            "CAFE PURCHASE", none, true, false, some "cat-user", .USER,
            some ((9 : Rat) / 10), none, none,
            ⟨"ext-1", 990, some "USD", "2026-01-31", none, some "Cafe", "CAFE PURCHASE",
              none, true, none⟩⟩)).category_id = some "cat-user" :=
  ((c1_upsert_protects_user_rule_category "u1" "a1"
      ⟨"ext-1", 1250, some "EUR", "2026-02-01", none, some "Cafe", "CAFE PURCHASE",
        none, false, none⟩
      (some "cat-sys")
      ⟨"u1", "a1", "PLAID", "ext-1", 990, "USD", "2026-01-31", none, some "Cafe",
        "CAFE PURCHASE", none, true, false, some "cat-user", .USER,
        some ((9 : Rat) / 10), none, none,
        ⟨"ext-1", 990, some "USD", "2026-01-31", none, some "Cafe", "CAFE PURCHASE",
          none, true, none⟩⟩
      _ rfl).1 (Or.inl rfl)).1

/-! ## Claim theorems for the sync job state machine -/

/-- C2: enqueuing a sync job twice with a byte-identical payload creates the
row on the first call (`created = true`) and reports the same job id as a
normal duplicate result (`created = false`) on the second call, leaving the
store unchanged and holding exactly one row for that payload fingerprint. -/
theorem c2_enqueue_dedupes_by_fingerprint
    (hash : String → String) (plaidItems : List PlaidItemRow) (jobs : List SyncJobRow)
    (id1 id2 : String) (t1 t2 : Int) (plaidApiItemId payload : String)
    (item : PlaidItemRow)
    (hitem : plaidItems.find? (fun it => it.plaid_item_id = plaidApiItemId) = some item)
    (hfresh : jobs.find? (fun j => j.idempotency_key = hash payload) = none) :
    ∃ jobs1,
      enqueueWebhookSyncJob hash plaidItems jobs id1 t1 plaidApiItemId payload =
          (jobs1, some ⟨true, id1, item.id⟩) ∧
        enqueueWebhookSyncJob hash plaidItems jobs1 id2 t2 plaidApiItemId payload =
          (jobs1, some ⟨false, id1, item.id⟩) ∧
        jobs1.countP (fun j => j.idempotency_key = hash payload) = 1 := by
  unfold enqueueWebhookSyncJob
  rw [hitem]
  simp only [hfresh]
  refine ⟨_, rfl, ?_, ?_⟩
  · rw [List.find?_append, hfresh]
    simp
  · rw [List.countP_append, List.countP_eq_zero.2 ?_, List.countP_cons]
    · simp
    · intro j hj
      exact (List.find?_eq_none.1 hfresh) j hj

/-- Witness for C2 at a concrete store with one linked item and no jobs. -/
theorem c2_witness :
    ∃ jobs1,
      enqueueWebhookSyncJob (fun s => s) [sampleItem] [] "j1" 0 "plaid-item-1" "pl" =
          (jobs1, some ⟨true, "j1", sampleItem.id⟩) ∧
        enqueueWebhookSyncJob (fun s => s) [sampleItem] jobs1 "j2" 7 "plaid-item-1" "pl" =
          (jobs1, some ⟨false, "j1", sampleItem.id⟩) ∧
        jobs1.countP (fun j => j.idempotency_key = (fun s : String => s) "pl") = 1 :=
  c2_enqueue_dedupes_by_fingerprint (fun s => s) [sampleItem] [] "j1" "j2" 0 7
    "plaid-item-1" "pl" sampleItem (by decide) rfl

/-- C3: once a job is claimed, execution ends in exactly one of the spec's
outcomes: on reconciler success, `COMPLETED` with the attempt count
incremented and the last error cleared; on failure, the attempt count is
incremented and the error recorded, and the job moves to `FAILED` with
`next_run_at = now` when the new count reaches `max_attempts`, else to
`RETRY` due `min(300, 2^max(1, attempts))` seconds after `now`. -/
theorem c3_execute_transitions (job : SyncJobRow) (now : Int)
    (res : Except String Unit) (claimed : SyncJobRow)
    (hc : claimSyncJob job now = some claimed)
    (j' : SyncJobRow) (pr : ProcessResult)
    (hp : processSyncJob job now res = (j', pr)) :
    (res = .ok () →
        j'.status = .COMPLETED ∧ j'.attempt_count = job.attempt_count + 1 ∧
          j'.last_error = none ∧ pr = .succeeded) ∧
      (∀ msg, res = .error msg →
        j'.attempt_count = job.attempt_count + 1 ∧
          j'.last_error = some msg ∧
          (job.max_attempts ≤ job.attempt_count + 1 →
            j'.status = .FAILED ∧ j'.next_run_at = now ∧ pr = .failedAttempt true) ∧
          (job.attempt_count + 1 < job.max_attempts →
            j'.status = .RETRY ∧
              j'.next_run_at = now + min 300 (2 ^ max 1 (job.attempt_count + 1)) * 1000 ∧
              pr = .failedAttempt false)) := by
  have hclaimed : claimed = { job with status := .PROCESSING } := by
    unfold claimSyncJob at hc
    split at hc
    · exact (Option.some.inj hc).symm
    · exact Option.noConfusion hc
  subst hclaimed
  unfold processSyncJob at hp
  rw [hc] at hp
  constructor
  · intro hres
    subst hres
    injection hp with hj hpr
    subst hj
    subst hpr
    exact ⟨rfl, rfl, rfl, rfl⟩
  · intro msg hres
    subst hres
    injection hp with hj hpr
    subst hj
    subst hpr
    unfold failSyncJob
    refine ⟨rfl, rfl, ?_, ?_⟩
    · intro hfin
      simp only [SyncJobRow.max_attempts, SyncJobRow.attempt_count]
      simp [hfin, nextRetryAt]
    · intro hlt
      have hfin : ¬ job.max_attempts ≤ job.attempt_count + 1 := by omega
      simp only [SyncJobRow.max_attempts, SyncJobRow.attempt_count]
      simp [hfin, nextRetryAt]

/-- Witness for C3: a due `PENDING` job whose reconciler run fails backs off
into `RETRY` two seconds later with the error recorded. -/
theorem c3_witness :
    (processSyncJob samplePendingJob 0 (.error "boom")).1.attempt_count = 1 ∧
      (processSyncJob samplePendingJob 0 (.error "boom")).1.last_error = some "boom" ∧
      (processSyncJob samplePendingJob 0 (.error "boom")).1.status = .RETRY ∧
      (processSyncJob samplePendingJob 0 (.error "boom")).1.next_run_at =
        0 + min 300 (2 ^ max 1 (samplePendingJob.attempt_count + 1)) * 1000 := by
  have h := c3_execute_transitions samplePendingJob 0 (.error "boom")
    { samplePendingJob with status := .PROCESSING } (by decide)
    (processSyncJob samplePendingJob 0 (.error "boom")).1
    (processSyncJob samplePendingJob 0 (.error "boom")).2 rfl
  obtain ⟨h1, h2, _, h4⟩ := h.2 "boom" rfl
  have h5 := h4 (by decide)
  exact ⟨h1, h2, h5.1, h5.2.1⟩

/-- C4: a job row reaches `PROCESSING` only through the claiming update
finding it `PENDING` or `RETRY` and due; an unclaimable job is reported as
not claimed and its row is left unchanged; no other status-writing operation
of the job module produces `PROCESSING`. -/
theorem c4_claim_is_sole_processing_entry :
    (∀ (job : SyncJobRow) (now : Int) (j' : SyncJobRow),
        claimSyncJob job now = some j' →
        (job.status = .PENDING ∨ job.status = .RETRY) ∧ job.next_run_at ≤ now ∧
          j' = { job with status := .PROCESSING }) ∧
      (∀ (job : SyncJobRow) (now : Int) (res : Except String Unit),
        ¬((job.status = .PENDING ∨ job.status = .RETRY) ∧ job.next_run_at ≤ now) →
        processSyncJob job now res = (job, .notClaimed)) ∧
      (∀ (job : SyncJobRow) (op : SyncJobOp),
        (applySyncJobOp job op).status = .PROCESSING →
        job.status = .PROCESSING ∨
          ∃ now, op = .claim now ∧
            (job.status = .PENDING ∨ job.status = .RETRY) ∧ job.next_run_at ≤ now) := by
  refine ⟨?_, ?_, ?_⟩
  · intro job now j' h
    unfold claimSyncJob at h
    split at h
    · next hcond => exact ⟨hcond.1, hcond.2, (Option.some.inj h).symm⟩
    · exact Option.noConfusion h
  · intro job now res h
    unfold processSyncJob claimSyncJob
    simp [h]
  · intro job op h
    cases op with
    | claim now =>
      by_cases hcond : (job.status = .PENDING ∨ job.status = .RETRY) ∧ job.next_run_at ≤ now
      · exact Or.inr ⟨now, rfl, hcond.1, hcond.2⟩
      · have heq : applySyncJobOp job (SyncJobOp.claim now) =
            (claimSyncJob job now).getD job := rfl
        rw [heq] at h
        unfold claimSyncJob at h
        rw [if_neg hcond] at h
        exact Or.inl h
    | complete =>
      have heq : applySyncJobOp job SyncJobOp.complete = completeSyncJob job := rfl
      rw [heq] at h
      simp [completeSyncJob] at h
    | fail now msg =>
      have heq : applySyncJobOp job (SyncJobOp.fail now msg) = failSyncJob job now msg := rfl
      rw [heq] at h
      unfold failSyncJob at h
      by_cases hfin : job.max_attempts ≤ job.attempt_count + 1 <;> simp [hfin] at h

/-- Witness for C4: claiming a due pending job yields the `PROCESSING` copy. -/
theorem c4_witness :
    (samplePendingJob.status = .PENDING ∨ samplePendingJob.status = .RETRY) ∧
      samplePendingJob.next_run_at ≤ 5 ∧
      { samplePendingJob with status := .PROCESSING } =
        { samplePendingJob with status := .PROCESSING } :=
  c4_claim_is_sole_processing_entry.1 samplePendingJob 5
    { samplePendingJob with status := .PROCESSING } (by decide)

/-- C10: the conflict branch of the reconciler's upsert never touches
`is_excluded` — a re-sync keeps the stored exclusion flag — while a first
insert sets it to `false`. -/
theorem c10_upsert_preserves_is_excluded
    (userId accountId : String) (tx : SyncTransaction)
    (categoryId : Option String) (ex : TransactionRow) :
    (upsertPlaidTransaction userId accountId tx categoryId (some ex)).is_excluded
        = ex.is_excluded ∧
      (upsertPlaidTransaction userId accountId tx categoryId none).is_excluded
        = false := by
  constructor <;> rfl

/-! ## Reconciler loop lemmas -/

theorem syncFetch_error_not_noItems
    (client : Option String → Except PlaidError SyncPage) (cursor : Option String)
    (e : SyncFailure) (h : (syncFetchWithDriftReset client cursor).2.2 = .error e) :
    e ≠ .noItems := by
  unfold syncFetchWithDriftReset at h
  cases h1 : client cursor with
  | ok page =>
    rw [h1] at h
    simp at h
  | error e1 =>
    rw [h1] at h
    by_cases h2 : cursorTruthy cursor = true
    · simp only [h2, if_true] at h
      cases h3 : client none with
      | ok page =>
        rw [h3] at h
        simp at h
      | error e2 =>
        rw [h3] at h
        simp at h
        intro hcon
        rw [hcon] at h
        simp at h
    · simp only [h2, if_false] at h
      simp at h
      intro hcon
      rw [hcon] at h
      simp at h

theorem runItemPageLoop_not_noItems
    (client : Option String → Except PlaidError SyncPage)
    (accountByPlaidId : List (String × String)) :
    ∀ (fuel : Nat) (cursor : Option String) (c : SyncCounts),
      runItemPageLoop client accountByPlaidId fuel cursor c ≠
        some (.error .noItems) := by
  intro fuel
  induction fuel with
  | zero =>
    intro cursor c h
    exact Option.noConfusion h
  | succ n ih =>
    intro cursor c h
    unfold runItemPageLoop at h
    cases hf : (syncFetchWithDriftReset client cursor).2.2 with
    | error e =>
      rw [hf] at h
      simp at h
      exact syncFetch_error_not_noItems client cursor e hf h
    | ok page =>
      rw [hf] at h
      simp only [] at h
      by_cases hm : page.has_more = true
      · rw [if_pos hm] at h
        exact ih (some page.next_cursor) (applySyncPage accountByPlaidId page c) h
      · rw [if_neg hm] at h
        simp at h

theorem runItemsLoop_not_noItems
    (client : String → Option String → Except PlaidError SyncPage)
    (accounts : List AccountRow) (userId : String) (fuel : Nat) :
    ∀ (items : List PlaidItemRow) (c : SyncCounts),
      runItemsLoop client accounts userId fuel items c ≠ some (.error .noItems) := by
  intro items
  induction items with
  | nil =>
    intro c h
    exact Except.noConfusion (Option.some.inj h)
  | cons item rest ih =>
    intro c h
    unfold runItemsLoop at h
    cases hl : runItemPageLoop (client item.id)
        (accountMapForItem accounts userId item.id) fuel item.plaid_cursor c with
    | none => rw [hl] at h; exact Option.noConfusion h
    | some r =>
      rw [hl] at h
      cases r with
      | error e =>
        have he := Except.error.inj (Option.some.inj h)
        rw [he] at hl
        exact runItemPageLoop_not_noItems (client item.id)
          (accountMapForItem accounts userId item.id) fuel item.plaid_cursor c hl
      | ok p => exact ih p.1 h

/-! ## Claim theorems for the reconciler run -/

/-- C8: when a page fetch fails while a truthy cursor is set, the reconciler
clears the stored cursor and retries exactly once from the beginning, and the
retry's outcome (page or raw upstream error) is final; when a fetch without a
cursor fails, the wrapped detail error propagates with no retry; in all cases
at most two fetches are attempted. -/
theorem c8_drift_clears_cursor_and_retries_once
    (client : Option String → Except PlaidError SyncPage) (cursor : Option String) :
    (∀ e, cursorTruthy cursor = true → client cursor = .error e →
        syncFetchWithDriftReset client cursor =
          ([cursor, none], true,
            match client none with
            | .ok page => .ok page
            | .error e2 => .error (.upstream e2))) ∧
      (∀ e, cursorTruthy cursor = false → client cursor = .error e →
        syncFetchWithDriftReset client cursor =
          ([cursor], false, .error (.fatal (plaidErrorDetails e)))) ∧
      (syncFetchWithDriftReset client cursor).1.length ≤ 2 := by
  refine ⟨?_, ?_, ?_⟩
  · intro e htruthy herr
    unfold syncFetchWithDriftReset
    rw [herr]
    cases h3 : client none <;> simp [htruthy, h3]
  · intro e htruthy herr
    unfold syncFetchWithDriftReset
    rw [herr]
    simp [htruthy]
  · unfold syncFetchWithDriftReset
    cases h1 : client cursor with
    | ok page => simp
    | error e =>
      by_cases h2 : cursorTruthy cursor = true
      · cases h3 : client none <;> simp [h2, h3]
      · simp [h2]

/-- Witness for C8: a failing cursor-ful fetch is retried once without the
cursor and succeeds. -/
theorem c8_witness :
    syncFetchWithDriftReset sampleDriftClient (some "cursor-0") =
      ([some "cursor-0", none], true,
        match sampleDriftClient none with
        | .ok page => .ok page
        | .error e2 => .error (.upstream e2)) :=
  (c8_drift_clears_cursor_and_retries_once sampleDriftClient (some "cursor-0")).1
    samplePlaidError rfl rfl

/-- C9: an incremental sync run throws the distinct named no-items failure
exactly when no linked item matches the requested scope; every other outcome
is either a page-level failure or a result whose `syncedItems` equals the
number of scoped items. -/
theorem c9_no_items_is_distinct_failure
    (plaidItems : List PlaidItemRow) (accounts : List AccountRow)
    (client : String → Option String → Except PlaidError SyncPage)
    (userId : String) (plaidItemDbId : Option String) (fuel : Nat) :
    (scopedPlaidItems plaidItems userId plaidItemDbId = [] →
        runIncrementalSyncForUser plaidItems accounts client userId plaidItemDbId fuel =
          some (.error .noItems)) ∧
      (scopedPlaidItems plaidItems userId plaidItemDbId ≠ [] →
        runIncrementalSyncForUser plaidItems accounts client userId plaidItemDbId fuel ≠
          some (.error .noItems)) ∧
      (∀ res,
        runIncrementalSyncForUser plaidItems accounts client userId plaidItemDbId fuel =
            some (.ok res) →
        res.syncedItems = (scopedPlaidItems plaidItems userId plaidItemDbId).length) := by
  refine ⟨?_, ?_, ?_⟩
  · intro hempty
    unfold runIncrementalSyncForUser
    rw [hempty]
    rfl
  · intro hne
    have hemp : (scopedPlaidItems plaidItems userId plaidItemDbId).isEmpty = false := by
      cases h : (scopedPlaidItems plaidItems userId plaidItemDbId).isEmpty
      · rfl
      · exact absurd (List.isEmpty_iff.1 h) hne
    unfold runIncrementalSyncForUser
    cases hl : runItemsLoop client accounts userId fuel
        (scopedPlaidItems plaidItems userId plaidItemDbId) ⟨0, 0, 0⟩ with
    | none => simp [hemp, hl]
    | some r =>
      cases r with
      | error e =>
        simp [hemp, hl]
        intro hcon
        rw [hcon] at hl
        exact runItemsLoop_not_noItems client accounts userId fuel
          (scopedPlaidItems plaidItems userId plaidItemDbId) ⟨0, 0, 0⟩ hl
      | ok c => simp [hemp, hl]
  · intro res hres
    unfold runIncrementalSyncForUser at hres
    by_cases hemp : (scopedPlaidItems plaidItems userId plaidItemDbId).isEmpty = true
    · simp [hemp] at hres
    · simp only [Bool.not_eq_true] at hemp
      cases hl : runItemsLoop client accounts userId fuel
          (scopedPlaidItems plaidItems userId plaidItemDbId) ⟨0, 0, 0⟩ with
      | none => simp [hemp, hl] at hres
      | some r =>
        cases r with
        | error e => simp [hemp, hl] at hres
        | ok c =>
          simp only [hemp, Bool.false_eq_true, if_false, hl, Option.some.injEq] at hres
          rw [← Except.ok.inj hres]

/-- Witness for C9: an unscoped run with no linked items throws the named
no-items failure, while a run over one linked item does not. -/
theorem c9_witness :
    runIncrementalSyncForUser [] [] (fun _ => sampleDriftClient) "user-1" none 1 =
        some (.error .noItems) ∧
      runIncrementalSyncForUser [sampleItem] [] (fun _ => sampleDriftClient)
          "user-1" none 1 ≠ some (.error .noItems) :=
  ⟨(c9_no_items_is_distinct_failure [] [] (fun _ => sampleDriftClient)
      "user-1" none 1).1 rfl,
   (c9_no_items_is_distinct_failure [sampleItem] [] (fun _ => sampleDriftClient)
      "user-1" none 1).2.1 (by decide)⟩

end BudgetApp
